import Mathlib

/-!
Shallow embedding of `src/specify_cli/backend/validation.py` (spec-kit's
agent configuration conformance validator) together with theorems about
its behaviour.

The filesystem snapshot is modelled as an explicit value (`FS`): a list of
existing directories plus a list of files, each file carrying either its
UTF-8 content (`Except.ok`) or a read-error message (`Except.error`).
Paths are lists of segments.  Python dicts that preserve insertion order
(the agent registry, the per-agent `paths` mapping, the two finding lists)
are modelled as association lists / lists in the same order the Python
code inserts into them.
-/

namespace SpecKit

/-- A filesystem path, as a list of segments below some root. -/
abbrev FsPath := List String

/-- Embeds `str(p.relative_to(project_root))` for paths below the root. -/
def relStr (root : FsPath) (p : FsPath) : String :=
  String.intercalate "/" (p.drop root.length)

/-- The characters Python's `\s` regex class (and `str` whitespace) covers
in the ASCII range. -/
def isPySpace (c : Char) : Bool :=
  c == ' ' || c == '\t' || c == '\n' || c == '\r' || c == '\x0b' || c == '\x0c'

/-- Embeds `s.startswith(pre)`, character-wise. -/
def strStartsWith (s pre : String) : Bool :=
  pre.data.isPrefixOf s.data

/-- Embeds the name test of `glob`: does the file name end with the given
suffix. -/
def strEndsWith (s suf : String) : Bool :=
  suf.data.isSuffixOf s.data

/-- Embeds `s.lower()` (ASCII case folding). -/
def strToLower (s : String) : String :=
  String.mk (s.data.map Char.toLower)

/-- Embeds stripping the leading `\s*` of the validator's anchored regexes. -/
def pyTrimLeft (s : String) : String :=
  String.mk (s.data.dropWhile isPySpace)

/-- Drops the first `n` characters of a string. -/
def strDrop (s : String) (n : Nat) : String :=
  String.mk (s.data.drop n)

/-- Does `needle` occur as a contiguous subsequence of the character list. -/
def listContainsSub (needle : List Char) : List Char → Bool
  | [] => needle.isEmpty
  | c :: cs => needle.isPrefixOf (c :: cs) || listContainsSub needle cs

/-- Embeds Python's substring test `sub in s`. -/
def containsStr (s sub : String) : Bool :=
  listContainsSub sub.data s.data

/-- Left-to-right, non-overlapping split on a (non-empty) separator:
`acc` holds the reversed current segment, `fuel` bounds the recursion by
the input length. -/
def splitOnGo (sep : List Char) : Nat → List Char → List Char → List (List Char)
  | 0, acc, _ => [acc.reverse]
  | _ + 1, acc, [] => [acc.reverse]
  | fuel + 1, acc, c :: cs =>
    if sep.isPrefixOf (c :: cs) then
      acc.reverse :: splitOnGo sep fuel [] ((c :: cs).drop sep.length)
    else
      splitOnGo sep fuel (c :: acc) cs

/-- Embeds Python's `s.split(sep)` for non-empty `sep`. -/
def strSplitOn (s sep : String) : List String :=
  (splitOnGo sep.data (s.data.length + 1) [] s.data).map String.mk

/-- Embeds Python's `s.split(sep, 2)`: at most three parts, the last one
keeping any further separator occurrences. -/
def pySplit2 (s sep : String) : List String :=
  let l := strSplitOn s sep
  if l.length ≤ 3 then l else l.take 2 ++ [String.intercalate sep (l.drop 2)]

/-- Embeds `re.search(r'^\s*<key>', s, re.MULTILINE)` for a key that ends
in a colon: some line starts, after leading whitespace, with the key. -/
def hasFrontmatterKey (fm key : String) : Bool :=
  (strSplitOn fm "\n").any (fun l => strStartsWith (pyTrimLeft l) key)

/-- Embeds `re.search(r'^\s*<key>\s*=', s, re.MULTILINE)`: some line
starts, after leading whitespace, with the key followed (after optional
whitespace) by an equals sign. -/
def hasTomlKey (content key : String) : Bool :=
  (strSplitOn content "\n").any (fun l =>
    let t := pyTrimLeft l
    strStartsWith t key && strStartsWith (pyTrimLeft (strDrop t key.length)) "=")

deriving instance DecidableEq for Except

/-- A filesystem snapshot: the set of existing directories and the set of
existing files.  A file's payload is `Except.ok content` when it is
readable and `Except.error e` when reading raises an exception rendered
as `e` (IOFailure in the spec's taxonomy). -/
structure FS where
  dirs : List FsPath
  files : List (FsPath × Except String String)
deriving DecidableEq

/-- Embeds `Path.exists()`: the path is a known directory or file. -/
def FS.existsPath (fs : FS) (p : FsPath) : Bool :=
  fs.dirs.contains p || fs.files.any (fun f => f.1 == p)

/-- Embeds `Path.read_text()`: `none` when the file does not exist at all,
`some (Except.error e)` when reading fails, `some (Except.ok c)` otherwise. -/
def FS.readFile (fs : FS) (p : FsPath) : Option (Except String String) :=
  fs.files.lookup p

/-- Embeds `dir.glob("*." + ext)`: the files directly inside `dir` whose
final segment ends with `"." ++ ext`, in snapshot (directory-listing)
order. -/
def FS.glob (fs : FS) (dir : FsPath) (ext : String) : List FsPath :=
  fs.files.filterMap (fun f =>
    if f.1.dropLast == dir &&
       (match f.1.getLast? with
        | some n => strEndsWith n ("." ++ ext)
        | none => false) then some f.1 else none)

/-- One agent registry entry (`AGENT_CONFIG` value): display name and base
folder (`none` for meta-entries such as "all"). -/
structure AgentCfg where
  name : String
  folder : Option String
deriving DecidableEq

/-- The agent registry: ordered mapping from agent key to its profile. -/
abbrev Registry := List (String × AgentCfg)

/-- One validation finding, as the Python dict literals build it: the
`severity` and `file` keys are optional (absent ⇒ `none`). -/
structure Finding where
  agent : String
  category : String
  severity : Option String
  file : Option String
  message : String
deriving DecidableEq

/-- The `paths` mapping of one detected agent: role name to path, in
insertion order. -/
abbrev AgentPaths := List (String × FsPath)

/-- Adds `[(role, p)]` when `p` exists, else nothing — the recurring
`if path.exists(): paths[role] = path` idiom of `_detect_agents`. -/
def roleIfExists (fs : FS) (role : String) (p : FsPath) : AgentPaths :=
  if fs.existsPath p then [(role, p)] else []

/-- The detection pattern shared by claude / gemini / qwen / codebuddy /
qoder / shai: a root-level context file plus a `commands` directory. -/
def mdAgentExtras (root : FsPath) (fs : FS) (agentDir : FsPath) (ctxName : String) : AgentPaths :=
  roleIfExists fs "context_file" (root ++ [ctxName])
  ++ roleIfExists fs "commands" (agentDir ++ ["commands"])

/-- The detection pattern shared by cursor-agent / windsurf / kilocode /
auggie / roo: a `rules` directory, and — only when it exists — a
`specify-rules` context file inside it. -/
def rulesExtras (fs : FS) (agentDir : FsPath) (rulesFileName : String) : AgentPaths :=
  if fs.existsPath (agentDir ++ ["rules"]) then
    ("rules", agentDir ++ ["rules"]) ::
      (if fs.existsPath (agentDir ++ ["rules", rulesFileName]) then
        [("context_file", agentDir ++ ["rules", rulesFileName])] else [])
  else []

/-- Embeds the per-agent `paths` construction inside `_detect_agents`
(the body of the big `elif` chain), starting from `{"dir": agent_dir}`. -/
def detect_paths (root : FsPath) (fs : FS) (agentKey : String) (agentDir : FsPath) : AgentPaths :=
  ("dir", agentDir) ::
  (if agentKey == "claude" then mdAgentExtras root fs agentDir "CLAUDE.md"
   else if agentKey == "gemini" then mdAgentExtras root fs agentDir "GEMINI.md"
   else if agentKey == "copilot" then
     roleIfExists fs "agents" (agentDir ++ ["agents"])
     ++ roleIfExists fs "prompts" (agentDir ++ ["prompts"])
     ++ (if fs.existsPath (agentDir ++ ["agents"]) &&
            fs.existsPath (agentDir ++ ["agents", "copilot-instructions.md"]) then
          [("context_file", agentDir ++ ["agents", "copilot-instructions.md"])] else [])
   else if agentKey == "cursor-agent" then
     rulesExtras fs agentDir "specify-rules.mdc"
     ++ roleIfExists fs "commands" (agentDir ++ ["commands"])
   else if agentKey == "qwen" then mdAgentExtras root fs agentDir "QWEN.md"
   else if agentKey == "opencode" then
     roleIfExists fs "commands" (agentDir ++ ["command"])
   else if agentKey == "codex" then
     roleIfExists fs "prompts" (agentDir ++ ["prompts"])
   else if agentKey == "windsurf" then
     rulesExtras fs agentDir "specify-rules.md"
     ++ roleIfExists fs "workflows" (agentDir ++ ["workflows"])
   else if agentKey == "kilocode" then
     rulesExtras fs agentDir "specify-rules.md"
     ++ roleIfExists fs "workflows" (agentDir ++ ["workflows"])
   else if agentKey == "auggie" then
     rulesExtras fs agentDir "specify-rules.md"
     ++ roleIfExists fs "commands" (agentDir ++ ["commands"])
   else if agentKey == "roo" then rulesExtras fs agentDir "specify-rules.md"
   else if agentKey == "codebuddy" then mdAgentExtras root fs agentDir "CODEBUDDY.md"
   else if agentKey == "qoder" then mdAgentExtras root fs agentDir "QODER.md"
   else if agentKey == "q" then
     roleIfExists fs "context_file" (root ++ ["AGENTS.md"])
     ++ roleIfExists fs "prompts" (agentDir ++ ["prompts"])
   else if agentKey == "amp" then
     roleIfExists fs "context_file" (root ++ ["AGENTS.md"])
     ++ roleIfExists fs "commands" (agentDir ++ ["commands"])
   else if agentKey == "bob" then
     roleIfExists fs "context_file" (root ++ ["AGENTS.md"])
     ++ roleIfExists fs "commands" (agentDir ++ ["commands"])
   else if agentKey == "shai" then mdAgentExtras root fs agentDir "SHAI.md"
   else [])

/-- Embeds one iteration of the `_detect_agents` loop: `none` when the
entry is skipped (no folder, missing base directory, or only the bare
`dir` role — `paths.keys() != {"dir"}` fails), `some paths` when the
agent is added to the detected map. -/
def detect_one (root : FsPath) (fs : FS) (agentKey : String) (cfg : AgentCfg) : Option AgentPaths :=
  match cfg.folder with
  | none => none
  | some folder =>
    let agentDir := root ++ [folder]
    if fs.existsPath agentDir then
      let paths := detect_paths root fs agentKey agentDir
      if paths.map Prod.fst = ["dir"] then none else some paths
    else none

/-- Embeds `AgentValidator._detect_agents`: the detected map, in registry
insertion order. -/
def detect_agents (root : FsPath) (fs : FS) (cfgs : Registry) : List (String × AgentPaths) :=
  cfgs.filterMap (fun kc => (detect_one root fs kc.1 kc.2).map (fun ps => (kc.1, ps)))

/-- The agent keys the structural checker treats as "markdown-based
agents" expected to own a `commands` directory (first branch of
`_check_directory_structure`). -/
def singleRootAgents : List String :=
  ["claude", "gemini", "cursor-agent", "qwen", "opencode", "codebuddy", "qoder", "shai"]

/-- Embeds `AgentValidator._check_directory_structure`.  Returns the pair
(new issues, new warnings) the call appends. -/
def check_directory_structure (root : FsPath) (cfgs : Registry) (fs : FS)
    (agentKey : String) (paths : AgentPaths) : List Finding × List Finding :=
  let expectedFolder :=
    match cfgs.lookup agentKey with
    | some c => c.folder.getD "None"
    | none => "None"
  match paths.lookup "dir" with
  | none =>
    ([⟨agentKey, "structure", some "error", none,
       "Agent directory not found: " ++ expectedFolder⟩], [])
  | some agentDir =>
    if singleRootAgents.contains agentKey then
      let commandsDir := agentDir ++ ["commands"]
      if fs.existsPath commandsDir then ([], [])
      else ([], [⟨agentKey, "structure", none, none,
                  "Expected commands directory not found: " ++ relStr root commandsDir⟩])
    else if agentKey == "copilot" then
      let agentsDir := agentDir ++ ["agents"]
      let promptsDir := agentDir ++ ["prompts"]
      ((if fs.existsPath agentsDir then [] else
          [⟨agentKey, "structure", some "error", none,
            "Expected agents directory not found: " ++ relStr root agentsDir⟩]),
       (if fs.existsPath promptsDir then [] else
          [⟨agentKey, "structure", none, none,
            "Expected prompts directory not found: " ++ relStr root promptsDir⟩]))
    else if agentKey == "windsurf" || agentKey == "kilocode" then
      let workflowsDir := agentDir ++ ["workflows"]
      let rulesDir := agentDir ++ ["rules"]
      ([], (if fs.existsPath workflowsDir then [] else
              [⟨agentKey, "structure", none, none,
                "Expected workflows directory not found: " ++ relStr root workflowsDir⟩])
           ++ (if fs.existsPath rulesDir then [] else
              [⟨agentKey, "structure", none, none,
                "Expected rules directory not found: " ++ relStr root rulesDir⟩]))
    else ([], [])

/-- Embeds `AgentValidator._get_expected_extension`. -/
def get_expected_extension (agentKey : String) : String :=
  if agentKey == "gemini" || agentKey == "qwen" then "toml"
  else if agentKey == "copilot" then "agent.md"
  else "md"

/-- Embeds `AgentValidator._validate_markdown_format`. -/
def validate_markdown_format (root : FsPath) (agentKey : String) (cmdFile : FsPath)
    (content : String) : List Finding × List Finding :=
  let rel := relStr root cmdFile
  if !strStartsWith content "---" then
    ([⟨agentKey, "format", some "error", some rel,
       "Missing YAML frontmatter (should start with ---)"⟩], [])
  else
    let parts := pySplit2 content "---"
    if parts.length < 3 then
      ([⟨agentKey, "format", some "error", some rel, "Invalid YAML frontmatter format"⟩], [])
    else
      let frontmatter := parts[1]?.getD ""
      let body := parts[2]?.getD ""
      ((if !hasFrontmatterKey frontmatter "description:" then
          [⟨agentKey, "format", some "error", some rel,
            "Missing 'description:' field in YAML frontmatter"⟩] else []),
       (if !containsStr body "{SCRIPT}" && !containsStr (strToLower body) "scripts/" then
          [⟨agentKey, "content", none, some rel,
            "No {SCRIPT} placeholder or script reference found in command body"⟩] else [])
       ++ (if !containsStr body "$ARGUMENTS" && !containsStr body "{ARGS}"
              && !containsStr body "{{args}}" then
          [⟨agentKey, "content", none, some rel,
            "No argument placeholder ($ARGUMENTS, {ARGS}, {{args}}) found in command body"⟩]
          else []))

/-- Embeds `AgentValidator._validate_toml_format`. -/
def validate_toml_format (root : FsPath) (agentKey : String) (cmdFile : FsPath)
    (content : String) : List Finding × List Finding :=
  let rel := relStr root cmdFile
  ((if !hasTomlKey content "description" then
      [⟨agentKey, "format", some "error", some rel,
        "Missing 'description =' field in TOML file"⟩] else [])
   ++ (if !hasTomlKey content "prompt" then
      [⟨agentKey, "format", some "error", some rel,
        "Missing 'prompt =' field in TOML file"⟩] else []),
   (if !containsStr content "{{args}}" && containsStr content "$ARGUMENTS" then
      [⟨agentKey, "format", none, some rel,
        "TOML format should use {{args}} instead of $ARGUMENTS"⟩] else []))

/-- Embeds `AgentValidator._validate_copilot_format`. -/
def validate_copilot_format (root : FsPath) (agentKey : String) (cmdFile : FsPath)
    (content : String) : List Finding × List Finding :=
  let rel := relStr root cmdFile
  if !strStartsWith content "---" then
    ([⟨agentKey, "format", some "error", some rel,
       "Missing YAML frontmatter (should start with ---)"⟩], [])
  else
    let parts := pySplit2 content "---"
    if parts.length < 3 then
      ([⟨agentKey, "format", some "error", some rel, "Invalid YAML frontmatter format"⟩], [])
    else
      let frontmatter := parts[1]?.getD ""
      ((if !hasFrontmatterKey frontmatter "description:" then
          [⟨agentKey, "format", some "error", some rel,
            "Missing 'description:' field in YAML frontmatter"⟩] else []),
       (if !hasFrontmatterKey frontmatter "mode:" then
          [⟨agentKey, "format", none, some rel,
            "Missing 'mode:' field in YAML frontmatter (recommended for Copilot)"⟩] else []))

/-- Embeds `AgentValidator._validate_command_file`. -/
def validate_command_file (root : FsPath) (fs : FS) (agentKey : String) (cmdFile : FsPath)
    (fileType : String) : List Finding × List Finding :=
  match fs.readFile cmdFile with
  | none =>
    ([⟨agentKey, "commands", some "error", some (relStr root cmdFile),
       "Failed to read " ++ fileType ++ " file: No such file or directory"⟩], [])
  | some (Except.error e) =>
    ([⟨agentKey, "commands", some "error", some (relStr root cmdFile),
       "Failed to read " ++ fileType ++ " file: " ++ e⟩], [])
  | some (Except.ok content) =>
    if agentKey == "gemini" || agentKey == "qwen" then
      validate_toml_format root agentKey cmdFile content
    else if agentKey == "copilot" then
      validate_copilot_format root agentKey cmdFile content
    else
      validate_markdown_format root agentKey cmdFile content

/-- Embeds `AgentValidator._check_command_files`. -/
def check_command_files (root : FsPath) (fs : FS) (agentKey : String) (commandsDir : FsPath)
    (fileType : String) : List Finding × List Finding :=
  if !fs.existsPath commandsDir then ([], [])
  else
    let extension := get_expected_extension agentKey
    let commandFiles := fs.glob commandsDir extension
    if commandFiles.isEmpty then
      ([], [⟨agentKey, "commands", none, none,
             "No " ++ fileType ++ " files found in " ++ relStr root commandsDir⟩])
    else
      (commandFiles.flatMap (fun f => (validate_command_file root fs agentKey f fileType).1),
       commandFiles.flatMap (fun f => (validate_command_file root fs agentKey f fileType).2))

/-- Embeds `AgentValidator._check_context_file`. -/
def check_context_file (root : FsPath) (fs : FS) (agentKey : String) (contextFile : FsPath) :
    List Finding × List Finding :=
  let rel := relStr root contextFile
  match fs.readFile contextFile with
  | none =>
    ([⟨agentKey, "context", some "error", some rel,
       "Failed to read context file: No such file or directory"⟩], [])
  | some (Except.error e) =>
    ([⟨agentKey, "context", some "error", some rel, "Failed to read context file: " ++ e⟩], [])
  | some (Except.ok content) =>
    ([],
     (if containsStr content "<!-- MANUAL ADDITIONS START -->" &&
         !containsStr content "<!-- MANUAL ADDITIONS END -->" then
        [⟨agentKey, "context", none, some rel,
          "Found MANUAL ADDITIONS START marker but missing END marker"⟩] else [])
     ++ (if containsStr content "[PROJECT NAME]" then
        [⟨agentKey, "context", none, some rel,
          "Context file contains unreplaced [PROJECT NAME] placeholder"⟩] else [])
     ++ (if containsStr content "[DATE]" then
        [⟨agentKey, "context", none, some rel,
          "Context file contains unreplaced [DATE] placeholder"⟩] else [])
     ++ (if !containsStr content "Active Technologies" && !containsStr content "Technologies" then
        [⟨agentKey, "context", none, some rel,
          "Context file may be missing 'Active Technologies' section"⟩] else []))

/-- The fixed required spec-kit command list of `_check_required_commands`. -/
def required_commands : List String :=
  ["specify", "plan", "tasks", "implement", "constitution", "clarify", "analyze", "checklist"]

/-- Embeds the `commands > workflows > prompts > agents` precedence chain
of `_check_required_commands`. -/
def primary_commands_dir (paths : AgentPaths) : Option FsPath :=
  match paths.lookup "commands" with
  | some d => some d
  | none =>
    match paths.lookup "workflows" with
    | some d => some d
    | none =>
      match paths.lookup "prompts" with
      | some d => some d
      | none => paths.lookup "agents"

/-- The probe path one required command name resolves to: copilot uses
`speckit-<name>.agent.md`, everyone else `<name>.<ext>`. -/
def required_command_file (agentKey : String) (dir : FsPath) (cmd : String) : FsPath :=
  if agentKey == "copilot" then dir ++ ["speckit-" ++ cmd ++ ".agent.md"]
  else dir ++ [cmd ++ "." ++ get_expected_extension agentKey]

/-- Embeds `AgentValidator._check_required_commands`. -/
def check_required_commands (fs : FS) (agentKey : String) (paths : AgentPaths) :
    List Finding × List Finding :=
  match primary_commands_dir paths with
  | none => ([], [])
  | some dir =>
    if !fs.existsPath dir then ([], [])
    else
      let missing :=
        required_commands.filter (fun c => !fs.existsPath (required_command_file agentKey dir c))
      if missing.isEmpty then ([], [])
      else ([], [⟨agentKey, "commands", none, none,
                  "Missing expected spec-kit commands: " ++ String.intercalate ", " missing⟩])

/-- Embeds `AgentValidator._validate_agent`: the four checks in call
order, each list in append order. -/
def validate_agent (root : FsPath) (cfgs : Registry) (fs : FS) (agentKey : String)
    (paths : AgentPaths) : List Finding × List Finding :=
  let s := check_directory_structure root cfgs fs agentKey paths
  let c :=
    match paths.lookup "commands" with
    | some d => check_command_files root fs agentKey d "command"
    | none =>
      match paths.lookup "workflows" with
      | some d => check_command_files root fs agentKey d "workflow"
      | none =>
        match paths.lookup "prompts" with
        | some d => check_command_files root fs agentKey d "prompt"
        | none => ([], [])
  let ctx :=
    match paths.lookup "context_file" with
    | some f => check_context_file root fs agentKey f
    | none => ([], [])
  let r := check_required_commands fs agentKey paths
  (s.1 ++ c.1 ++ ctx.1 ++ r.1, s.2 ++ c.2 ++ ctx.2 ++ r.2)

/-- The informational finding emitted when detection finds no agents. -/
def no_agents_warning : Finding :=
  ⟨"none", "detection", none, none, "No AI agent configurations detected in project"⟩

/-- The mutable state of one `AgentValidator` instance: its `issues` and
`warnings` lists (both empty right after `__init__`). -/
structure VState where
  issues : List Finding
  warnings : List Finding
deriving DecidableEq

/-- The empty state an `AgentValidator` is constructed with. -/
def VState.fresh : VState := ⟨[], []⟩

/-- The `(success, issues, warnings)` triple `validate_all` returns. -/
structure ValidationResult where
  success : Bool
  issues : List Finding
  warnings : List Finding
deriving DecidableEq

/-- Embeds `AgentValidator.validate_all`, run on a validator whose state
is `s`.  Mirrors the source: in the no-detection branch the returned
issue list is a fresh `[]` while the warning list is the instance list
with the informational warning appended; otherwise both instance lists
grow by each detected agent's findings and `success` is
`len(self.issues) == 0`. -/
def validate_all (root : FsPath) (cfgs : Registry) (fs : FS) (s : VState) : ValidationResult :=
  let detected := detect_agents root fs cfgs
  if detected.isEmpty then
    ⟨true, [], s.warnings ++ [no_agents_warning]⟩
  else
    let issues := s.issues ++ detected.flatMap (fun kp => (validate_agent root cfgs fs kp.1 kp.2).1)
    let warnings := s.warnings ++ detected.flatMap (fun kp => (validate_agent root cfgs fs kp.1 kp.2).2)
    ⟨issues.length == 0, issues, warnings⟩

/-- Embeds the module-level `validate_agent_standards`: constructs a
fresh validator and runs `validate_all`. -/
def validate_agent_standards (root : FsPath) (cfgs : Registry) (fs : FS) : ValidationResult :=
  validate_all root cfgs fs VState.fresh

/-- The content of the golden-scenario command file of C7. -/
def c7_content : String :=
  "---\ndescription: x\n---\nBody referencing scripts/ and $ARGUMENTS"

/-- The role names (other than `dir`) a detection probe can record. -/
def roleNames : List String :=
  ["commands", "workflows", "prompts", "rules", "agents", "context_file"]

/-! ### Concrete registries and snapshots used by witnesses and counterexamples -/

/-- A one-entry registry holding only the claude profile. -/
def regClaude : Registry := [("claude", ⟨"Claude Code", some ".claude"⟩)]

/-- A one-entry registry holding only the opencode profile. -/
def regOpencode : Registry := [("opencode", ⟨"opencode", some ".opencode"⟩)]

/-- Snapshot: `.claude/commands` exists and holds one well-formed command
file `specify.md`. -/
def fsClaude : FS :=
  ⟨[[".claude"], [".claude", "commands"]],
   [([".claude", "commands", "specify.md"], Except.ok c7_content)]⟩

/-- Snapshot: `.opencode/command` (singular) exists; `.opencode/commands`
(plural) does not. -/
def fsOpencode : FS := ⟨[[".opencode"], [".opencode", "command"]], []⟩

/-- Snapshot: `.claude` exists but holds no recognized sub-artifact. -/
def fsClaudeBare : FS := ⟨[[".claude"]], []⟩

/-- Snapshot: `.claude/commands/specify.md` exists but has no frontmatter. -/
def fsClaudeBadFile : FS :=
  ⟨[[".claude"], [".claude", "commands"]],
   [([".claude", "commands", "specify.md"], Except.ok "no frontmatter")]⟩

/-- The `paths` mapping detection produces for claude when only its
`commands` directory is present. -/
def pathsClaude : AgentPaths := [("dir", [".claude"]), ("commands", [".claude", "commands"])]

/-- The `paths` mapping detection produces for opencode when only its
`command` (singular) directory is present. -/
def pathsOpencode : AgentPaths := [("dir", [".opencode"]), ("commands", [".opencode", "command"])]

/-- Snapshot: `.claude/commands` holds all eight required command files. -/
def fsAllCmds : FS :=
  ⟨[[".claude"], [".claude", "commands"]],
   required_commands.map (fun c => ([".claude", "commands", c ++ ".md"], Except.ok c7_content))⟩

/-! ### Shape predicates used by the finding-provenance lemmas -/

/-- Shape of every error finding `_validate_agent` can append for agent
`k`: tagged with `k`, carrying `severity: error`, and with a message that
does not begin with the character 'A' (so in particular it is never an
"Agent directory not found" message, whose head is 'A'). -/
def IssueOk (k : String) (f : Finding) : Prop :=
  f.agent = k ∧ f.severity = some "error" ∧ f.message.data.head? ≠ some 'A'

/-- Shape of every warning finding `_validate_agent` can append for agent
`k`: tagged with `k`, carrying no severity key at all, message not
beginning with 'A'. -/
def WarnOk (k : String) (f : Finding) : Prop :=
  f.agent = k ∧ f.severity = none ∧ f.message.data.head? ≠ some 'A'

/-- Both components of a checker's output are well-shaped for agent `k`. -/
def PairOk (k : String) (out : List Finding × List Finding) : Prop :=
  (∀ f ∈ out.1, IssueOk k f) ∧ (∀ f ∈ out.2, WarnOk k f)

/-- Shape of a non-`dir` entry of `detect_paths`: a recognized role,
distinct from `dir`, resolved to a path that exists on disk. -/
def TailOk (fs : FS) (rp : String × FsPath) : Prop :=
  rp.1 ∈ roleNames ∧ rp.1 ≠ "dir" ∧ fs.existsPath rp.2 = true

/-! ## Theorems about the validator -/

/-- Head character of a string append, given the head of the prefix. -/
theorem data_head_append (pre suf : String) (c : Char) (h : pre.data.head? = some c) :
    (pre ++ suf).data.head? = some c := by
  cases pre with
  | mk l =>
    cases suf with
    | mk m =>
      show (l ++ m).head? = some c
      cases l with
      | nil => simp at h
      | cons a t => simpa using h

/-- A string with a known head character other than 'A' does not have
head 'A'. -/
theorem head_ne_A_of_head_eq {m : String} {c : Char} (h : m.data.head? = some c)
    (hne : c ≠ 'A') : m.data.head? ≠ some 'A' := by
  rw [h]; simpa using hne

/-- Membership in a conditional singleton forces the element. -/
theorem forall_mem_if_singleton {α : Type} {c : Prop} [Decidable c] {x : α} {P : α → Prop}
    (h : P x) : ∀ a ∈ (if c then [x] else []), P a := by
  intro a ha
  split at ha
  · rw [List.mem_singleton.mp ha]; exact h
  · simp at ha

/-- Pointwise property of an append from its parts. -/
theorem forall_mem_append_of {α : Type} {P : α → Prop} {l₁ l₂ : List α}
    (h₁ : ∀ a ∈ l₁, P a) (h₂ : ∀ a ∈ l₂, P a) : ∀ a ∈ l₁ ++ l₂, P a :=
  List.forall_mem_append.mpr ⟨h₁, h₂⟩

/-- C1: `validate_all` succeeds exactly when the returned issue list is
empty — `success ⇔ issues.length == 0` — for any validator state,
independent of how many warnings were recorded. -/
theorem c1_success_iff_no_issues (root : FsPath) (cfgs : Registry) (fs : FS) (s : VState) :
    (validate_all root cfgs fs s).success = true ↔ (validate_all root cfgs fs s).issues = [] := by
  unfold validate_all
  cases h : (detect_agents root fs cfgs).isEmpty with
  | true => simp [h]
  | false => simp only [h, Bool.false_eq_true, if_false, beq_iff_eq, List.length_eq_zero]

/-- C5: a file whose content starts with the `---` delimiter but splits
into fewer than three segments yields exactly one error Finding (the
invalid-frontmatter error) and nothing else, under both the markdown
format validator and the copilot format validator, short-circuiting the
field and placeholder checks. -/
theorem c5_invalid_frontmatter_short_circuits (root : FsPath) (agentKey : String)
    (cmdFile : FsPath) (content : String)
    (h1 : strStartsWith content "---" = true)
    (h2 : (pySplit2 content "---").length < 3) :
    validate_markdown_format root agentKey cmdFile content =
      ([⟨agentKey, "format", some "error", some (relStr root cmdFile),
         "Invalid YAML frontmatter format"⟩], []) ∧
    validate_copilot_format root agentKey cmdFile content =
      ([⟨agentKey, "format", some "error", some (relStr root cmdFile),
         "Invalid YAML frontmatter format"⟩], []) := by
  unfold validate_markdown_format validate_copilot_format
  simp [h1, h2]

/-- Witness for C5 at the concrete content `"---abc"`. -/
theorem c5_invalid_frontmatter_short_circuits_witness :
    strStartsWith "---abc" "---" = true ∧ (pySplit2 "---abc" "---").length < 3 ∧
    validate_markdown_format [] "claude" ["specify.md"] "---abc" =
      ([⟨"claude", "format", some "error", some (relStr [] ["specify.md"]),
         "Invalid YAML frontmatter format"⟩], []) :=
  ⟨by decide, by decide,
   (c5_invalid_frontmatter_short_circuits [] "claude" ["specify.md"] "---abc"
      (by decide) (by decide)).1⟩

/-- C7: for any markdown-format agent, a command file with content
`---\ndescription: x\n---\nBody referencing scripts/ and $ARGUMENTS`
produces zero format and content findings: the frontmatter splits into 3
segments, the description field is found, and the script reference and
`$ARGUMENTS` placeholder suppress both body warnings. -/
theorem c7_golden_markdown_file_clean (root : FsPath) (agentKey : String) (cmdFile : FsPath) :
    validate_markdown_format root agentKey cmdFile c7_content = ([], []) := rfl

/-- C8: when the detector finds zero agents, a freshly constructed
validator returns success together with an empty issue list and exactly
the single informational no-agent-configuration warning. -/
theorem c8_empty_detection_single_warning (root : FsPath) (cfgs : Registry) (fs : FS)
    (h : detect_agents root fs cfgs = []) :
    validate_agent_standards root cfgs fs = ⟨true, [], [no_agents_warning]⟩ := by
  unfold validate_agent_standards validate_all VState.fresh
  simp [h]

/-- Witness for C8 on the empty registry. -/
theorem c8_empty_detection_single_warning_witness :
    detect_agents [] ⟨[], []⟩ [] = [] ∧
    validate_agent_standards [] [] ⟨[], []⟩ = ⟨true, [], [no_agents_warning]⟩ :=
  ⟨rfl, c8_empty_detection_single_warning [] [] ⟨[], []⟩ rfl⟩

/-- C9: validation is deterministic — any two invocations of
`validate_agent_standards` on the same filesystem snapshot and registry
produce identical issue lists, identical warning lists and the same
success flag.  The embedding is a pure function of the snapshot, which is
exactly the source situation: `validate_agent_standards` builds a fresh
`AgentValidator` (empty finding lists) and performs only read-only
filesystem access. -/
theorem c9_validation_deterministic (root : FsPath) (cfgs : Registry) (fs : FS)
    (r₁ r₂ : ValidationResult)
    (h₁ : r₁ = validate_agent_standards root cfgs fs)
    (h₂ : r₂ = validate_agent_standards root cfgs fs) :
    r₁.issues = r₂.issues ∧ r₁.warnings = r₂.warnings ∧ r₁.success = r₂.success := by
  subst h₁; subst h₂; exact ⟨rfl, rfl, rfl⟩

/-- Witness for C9 on a concrete snapshot with one detected agent. -/
theorem c9_validation_deterministic_witness :
    (validate_agent_standards [] [("claude", ⟨"Claude Code", some ".claude"⟩)]
        ⟨[[".claude"], [".claude", "commands"]], []⟩).issues =
      (validate_agent_standards [] [("claude", ⟨"Claude Code", some ".claude"⟩)]
        ⟨[[".claude"], [".claude", "commands"]], []⟩).issues ∧
    (validate_agent_standards [] [("claude", ⟨"Claude Code", some ".claude"⟩)]
        ⟨[[".claude"], [".claude", "commands"]], []⟩).warnings =
      (validate_agent_standards [] [("claude", ⟨"Claude Code", some ".claude"⟩)]
        ⟨[[".claude"], [".claude", "commands"]], []⟩).warnings ∧
    (validate_agent_standards [] [("claude", ⟨"Claude Code", some ".claude"⟩)]
        ⟨[[".claude"], [".claude", "commands"]], []⟩).success =
      (validate_agent_standards [] [("claude", ⟨"Claude Code", some ".claude"⟩)]
        ⟨[[".claude"], [".claude", "commands"]], []⟩).success :=
  c9_validation_deterministic [] [("claude", ⟨"Claude Code", some ".claude"⟩)]
    ⟨[[".claude"], [".claude", "commands"]], []⟩ _ _ rfl rfl

/-- C3 (amended): for every detected agent in the single-root layout
family, the structural checker emits exactly one structural warning when
the `commands` directory under the agent's base directory is missing and
no structural finding at all when it exists.  The directory probed is
always `commands` (plural) — also for opencode, whose detection probes
`command` (singular) — so opencode with only `command` present receives
the structural warning; see the counterexample theorem. -/
theorem c3_single_root_structure_warning (root : FsPath) (cfgs : Registry) (fs : FS)
    (agentKey : String) (paths : AgentPaths) (agentDir : FsPath)
    (hfam : singleRootAgents.contains agentKey = true)
    (hdir : paths.lookup "dir" = some agentDir) :
    check_directory_structure root cfgs fs agentKey paths =
      ([], if fs.existsPath (agentDir ++ ["commands"]) = true then []
           else [⟨agentKey, "structure", none, none,
                 "Expected commands directory not found: "
                   ++ relStr root (agentDir ++ ["commands"])⟩]) := by
  unfold check_directory_structure
  rw [hdir]
  have hmem : agentKey ∈ singleRootAgents := by simpa using hfam
  by_cases hex : fs.existsPath (agentDir ++ ["commands"]) = true <;> simp [hmem, hex]

/-- Witness for C3's amended statement at the opencode snapshot. -/
theorem c3_single_root_structure_warning_witness :
    singleRootAgents.contains "opencode" = true ∧
    (pathsOpencode.lookup "dir" = some [".opencode"]) ∧
    check_directory_structure [] regOpencode fsOpencode "opencode" pathsOpencode =
      ([], [⟨"opencode", "structure", none, none,
            "Expected commands directory not found: .opencode/commands"⟩]) := by
  refine ⟨by decide, by decide, ?_⟩
  rw [c3_single_root_structure_warning [] regOpencode fsOpencode "opencode" pathsOpencode
      [".opencode"] (by decide) (by decide)]
  decide

/-- C3 counterexample: opencode is detected through its `command`
(singular) directory — its sole detection artifact root exists — yet the
structural checker probes `commands` (plural) and does emit a structural
finding for it, contradicting the claim's "no structural findings"
example. -/
theorem c3_counterexample_opencode :
    ("opencode", pathsOpencode) ∈ detect_agents [] fsOpencode regOpencode ∧
    fsOpencode.existsPath [".opencode", "command"] = true ∧
    (⟨"opencode", "structure", none, none,
      "Expected commands directory not found: .opencode/commands"⟩ : Finding) ∈
      (validate_agent_standards [] regOpencode fsOpencode).warnings := by decide

/-- C6: the required-command-set checker checks the fixed ordered 8-name
list for every agent; the probed directory follows the precedence
commands > workflows > prompts > agents (first present role wins);
copilot resolves a name to `speckit-<name>.agent.md` while every other
agent uses `<name>.<ext>`; the checker never produces errors and merges
all missing names into at most one warning whose message lists them
comma-separated; given an existing primary directory, no warning is
produced exactly when every required command file exists. -/
theorem c6_required_command_set (fs : FS) (agentKey : String) (paths : AgentPaths) :
    required_commands = ["specify", "plan", "tasks", "implement",
                         "constitution", "clarify", "analyze", "checklist"] ∧
    (∀ d, paths.lookup "commands" = some d → primary_commands_dir paths = some d) ∧
    (paths.lookup "commands" = none →
       ∀ d, paths.lookup "workflows" = some d → primary_commands_dir paths = some d) ∧
    (paths.lookup "commands" = none → paths.lookup "workflows" = none →
       ∀ d, paths.lookup "prompts" = some d → primary_commands_dir paths = some d) ∧
    (paths.lookup "commands" = none → paths.lookup "workflows" = none →
       paths.lookup "prompts" = none → primary_commands_dir paths = paths.lookup "agents") ∧
    (∀ dir cmd, required_command_file "copilot" dir cmd =
       dir ++ ["speckit-" ++ cmd ++ ".agent.md"]) ∧
    (agentKey ≠ "copilot" → ∀ dir cmd, required_command_file agentKey dir cmd =
       dir ++ [cmd ++ "." ++ get_expected_extension agentKey]) ∧
    (check_required_commands fs agentKey paths).1 = [] ∧
    (check_required_commands fs agentKey paths).2.length ≤ 1 ∧
    (∀ dir, primary_commands_dir paths = some dir → fs.existsPath dir = true →
       (((check_required_commands fs agentKey paths).2 = []) ↔
          ∀ cmd ∈ required_commands,
            fs.existsPath (required_command_file agentKey dir cmd) = true) ∧
       ∀ w ∈ (check_required_commands fs agentKey paths).2,
         w.message = "Missing expected spec-kit commands: " ++ String.intercalate ", "
           (required_commands.filter
              (fun cmd => !fs.existsPath (required_command_file agentKey dir cmd)))) := by
  refine ⟨rfl, ?_, ?_, ?_, ?_, ?_, ?_, ?_, ?_, ?_⟩
  · intro d h; unfold primary_commands_dir; rw [h]
  · intro h d h2; unfold primary_commands_dir; rw [h, h2]
  · intro h h2 d h3; unfold primary_commands_dir; rw [h, h2, h3]
  · intro h h2 h3; unfold primary_commands_dir; rw [h, h2, h3]
  · intro dir cmd; rfl
  · intro hk dir cmd
    have hb : (agentKey == "copilot") = false := by simpa using hk
    simp [required_command_file, hb]
  · unfold check_required_commands
    cases h : primary_commands_dir paths with
    | none => rfl
    | some dir =>
      by_cases hex : fs.existsPath dir = true
      · simp only [hex]
        by_cases hm : (required_commands.filter
            (fun c => !fs.existsPath (required_command_file agentKey dir c))).isEmpty = true <;>
          simp [hm]
      · simp [hex]
  · unfold check_required_commands
    cases h : primary_commands_dir paths with
    | none => simp
    | some dir =>
      by_cases hex : fs.existsPath dir = true
      · simp only [hex]
        by_cases hm : (required_commands.filter
            (fun c => !fs.existsPath (required_command_file agentKey dir c))).isEmpty = true <;>
          simp [hm]
      · simp [hex]
  · intro dir h hex
    have heq : check_required_commands fs agentKey paths =
        (if (required_commands.filter
              (fun c => !fs.existsPath (required_command_file agentKey dir c))).isEmpty then
           ([], [])
         else ([], [⟨agentKey, "commands", none, none,
                "Missing expected spec-kit commands: " ++ String.intercalate ", "
                  (required_commands.filter
                    (fun c => !fs.existsPath (required_command_file agentKey dir c)))⟩])) := by
      unfold check_required_commands
      rw [h]
      simp [hex]
    rw [heq]
    by_cases hm : (required_commands.filter
        (fun c => !fs.existsPath (required_command_file agentKey dir c))).isEmpty = true
    · rw [if_pos hm]
      refine ⟨⟨fun _ cmd hcmd => ?_, fun _ => rfl⟩, fun w hw => by simp at hw⟩
      have := List.filter_eq_nil_iff.mp (List.isEmpty_iff.mp hm) cmd hcmd
      simpa using this
    · rw [if_neg hm]
      have hne : (required_commands.filter
          (fun c => !fs.existsPath (required_command_file agentKey dir c))) ≠ [] :=
        fun hnil => hm (List.isEmpty_iff.mpr hnil)
      refine ⟨⟨fun hfalse => absurd hfalse (by simp), fun hall => ?_⟩, fun w hw => ?_⟩
      · exact absurd (List.filter_eq_nil_iff.mpr
          (fun cmd hcmd => by simp [hall cmd hcmd])) hne
      · rw [List.mem_singleton.mp hw]

/-- Witness for C6: with all eight command files present, the checker
emits no warning. -/
theorem c6_required_command_set_witness :
    primary_commands_dir pathsClaude = some [".claude", "commands"] ∧
    fsAllCmds.existsPath [".claude", "commands"] = true ∧
    (check_required_commands fsAllCmds "claude" pathsClaude).2 = [] := by
  refine ⟨by decide, by decide, ?_⟩
  obtain ⟨-, -, -, -, -, -, -, -, -, h⟩ := c6_required_command_set fsAllCmds "claude" pathsClaude
  exact ((h [".claude", "commands"] (by decide) (by decide)).1).mpr (by decide)

/-- `detect_paths` always starts with the `dir` entry. -/
theorem detect_paths_cons (root : FsPath) (fs : FS) (k : String) (d : FsPath) :
    detect_paths root fs k d = ("dir", d) :: (detect_paths root fs k d).tail := rfl

/-- Looking up `dir` in a detection paths mapping yields the base
directory. -/
theorem detect_paths_lookup_dir (root : FsPath) (fs : FS) (k : String) (d : FsPath) :
    (detect_paths root fs k d).lookup "dir" = some d := by
  rw [detect_paths_cons]
  simp [List.lookup]

/-- Inverting a successful `detect_one`. -/
theorem detect_one_eq_some (root : FsPath) (fs : FS) (k : String) (c : AgentCfg)
    (paths : AgentPaths) (h : detect_one root fs k c = some paths) :
    ∃ folder, c.folder = some folder ∧ fs.existsPath (root ++ [folder]) = true ∧
      paths = detect_paths root fs k (root ++ [folder]) ∧
      paths.map Prod.fst ≠ ["dir"] := by
  unfold detect_one at h
  split at h
  next => cases h
  next folder hf =>
    dsimp only at h
    split at h
    next he =>
      split at h
      next hk => cases h
      next hk =>
        refine ⟨folder, hf, he, (Option.some.inj h).symm, ?_⟩
        rw [(Option.some.inj h).symm]
        exact hk
    next he => cases h

/-- `detect_one` succeeds as soon as the base directory exists and some
role other than `dir` was recorded. -/
theorem detect_one_of_tail_ne (root : FsPath) (fs : FS) (k : String) (c : AgentCfg)
    (folder : String) (hf : c.folder = some folder)
    (he : fs.existsPath (root ++ [folder]) = true)
    (hne : (detect_paths root fs k (root ++ [folder])).tail ≠ []) :
    detect_one root fs k c = some (detect_paths root fs k (root ++ [folder])) := by
  have hstep : detect_one root fs k c =
      (if fs.existsPath (root ++ [folder]) = true then
        (if (detect_paths root fs k (root ++ [folder])).map Prod.fst = ["dir"] then none
         else some (detect_paths root fs k (root ++ [folder])))
      else none) := by
    unfold detect_one; rw [hf]
  rw [hstep, if_pos he, if_neg]
  intro hkeys
  apply hne
  rw [detect_paths_cons root fs k (root ++ [folder])] at hkeys
  simp only [List.map_cons, List.cons.injEq, true_and] at hkeys
  exact List.map_eq_nil_iff.mp hkeys

/-- Membership in the detected map unfolds to a registry entry whose
`detect_one` succeeded. -/
theorem detect_agents_mem (root : FsPath) (fs : FS) (cfgs : Registry) (k : String)
    (paths : AgentPaths) :
    (k, paths) ∈ detect_agents root fs cfgs ↔
      ∃ c, (k, c) ∈ cfgs ∧ detect_one root fs k c = some paths := by
  unfold detect_agents
  rw [List.mem_filterMap]
  constructor
  · rintro ⟨⟨k', c⟩, hmem, heq⟩
    rw [Option.map_eq_some'] at heq
    obtain ⟨ps, hdet, hpair⟩ := heq
    obtain ⟨hk, hp⟩ := Prod.mk.injEq .. ▸ hpair
    subst hk; subst hp
    exact ⟨c, hmem, hdet⟩
  · rintro ⟨c, hmem, hdet⟩
    exact ⟨(k, c), hmem, by rw [hdet]; rfl⟩

/-- Every entry a `roleIfExists` probe records is a well-shaped non-`dir`
role with an existing path. -/
theorem roleIfExists_tail_ok (fs : FS) (role : String) (p : FsPath)
    (hrole : role ∈ roleNames) (hne : role ≠ "dir") :
    ∀ rp ∈ roleIfExists fs role p, TailOk fs rp := by
  intro rp hrp
  unfold roleIfExists at hrp
  split at hrp
  case isTrue h => rw [List.mem_singleton.mp hrp]; exact ⟨hrole, hne, h⟩
  case isFalse h => simp at hrp

/-- Well-shapedness of the claude-style context+commands probe. -/
theorem mdAgentExtras_tail_ok (root : FsPath) (fs : FS) (d : FsPath) (ctx : String) :
    ∀ rp ∈ mdAgentExtras root fs d ctx, TailOk fs rp :=
  forall_mem_append_of
    (roleIfExists_tail_ok fs "context_file" (root ++ [ctx]) (by decide) (by decide))
    (roleIfExists_tail_ok fs "commands" (d ++ ["commands"]) (by decide) (by decide))

/-- Well-shapedness of the rules+context probe. -/
theorem rulesExtras_tail_ok (fs : FS) (d : FsPath) (fn : String) :
    ∀ rp ∈ rulesExtras fs d fn, TailOk fs rp := by
  intro rp hrp
  unfold rulesExtras at hrp
  split at hrp
  case isTrue h =>
    rcases List.mem_cons.mp hrp with hrp | hrp
    · rw [hrp]
      exact ⟨(by decide : ("rules" : String) ∈ roleNames),
             (by decide : ("rules" : String) ≠ "dir"), h⟩
    · split at hrp
      case isTrue h2 =>
        rw [List.mem_singleton.mp hrp]
        exact ⟨(by decide : ("context_file" : String) ∈ roleNames),
               (by decide : ("context_file" : String) ≠ "dir"), h2⟩
      case isFalse h2 => simp at hrp
  case isFalse h => simp at hrp

/-- Well-shapedness of the copilot instructions-file probe. -/
theorem copilot_ctx_tail_ok (fs : FS) (d : FsPath) :
    ∀ rp ∈ (if fs.existsPath (d ++ ["agents"]) &&
               fs.existsPath (d ++ ["agents", "copilot-instructions.md"]) then
              [("context_file", d ++ ["agents", "copilot-instructions.md"])] else []),
      TailOk fs rp := by
  intro rp hrp
  split at hrp
  case isTrue h =>
    rw [List.mem_singleton.mp hrp]
    exact ⟨(by decide : ("context_file" : String) ∈ roleNames),
           (by decide : ("context_file" : String) ≠ "dir"), (Bool.and_eq_true .. ▸ h).2⟩
  case isFalse h => simp at hrp

/-- Every non-`dir` entry of a detection paths mapping is a recognized
role, distinct from `dir`, with an existing path. -/
theorem detect_paths_tail_ok (root : FsPath) (fs : FS) (k : String) (d : FsPath) :
    ∀ rp ∈ (detect_paths root fs k d).tail, TailOk fs rp := by
  intro rp hrp
  unfold detect_paths at hrp
  rw [List.tail_cons] at hrp
  by_cases h1 : (k == "claude") = true
  · rw [if_pos h1] at hrp
    exact mdAgentExtras_tail_ok _ _ _ _ rp hrp
  rw [if_neg h1] at hrp
  by_cases h2 : (k == "gemini") = true
  · rw [if_pos h2] at hrp
    exact mdAgentExtras_tail_ok _ _ _ _ rp hrp
  rw [if_neg h2] at hrp
  by_cases h3 : (k == "copilot") = true
  · rw [if_pos h3] at hrp
    exact forall_mem_append_of
      (forall_mem_append_of (roleIfExists_tail_ok _ _ _ (by decide) (by decide))
        (roleIfExists_tail_ok _ _ _ (by decide) (by decide)))
      (copilot_ctx_tail_ok _ _) rp hrp
  rw [if_neg h3] at hrp
  by_cases h4 : (k == "cursor-agent") = true
  · rw [if_pos h4] at hrp
    exact forall_mem_append_of (rulesExtras_tail_ok _ _ _)
      (roleIfExists_tail_ok _ _ _ (by decide) (by decide)) rp hrp
  rw [if_neg h4] at hrp
  by_cases h5 : (k == "qwen") = true
  · rw [if_pos h5] at hrp
    exact mdAgentExtras_tail_ok _ _ _ _ rp hrp
  rw [if_neg h5] at hrp
  by_cases h6 : (k == "opencode") = true
  · rw [if_pos h6] at hrp
    exact roleIfExists_tail_ok _ _ _ (by decide) (by decide) rp hrp
  rw [if_neg h6] at hrp
  by_cases h7 : (k == "codex") = true
  · rw [if_pos h7] at hrp
    exact roleIfExists_tail_ok _ _ _ (by decide) (by decide) rp hrp
  rw [if_neg h7] at hrp
  by_cases h8 : (k == "windsurf") = true
  · rw [if_pos h8] at hrp
    exact forall_mem_append_of (rulesExtras_tail_ok _ _ _)
      (roleIfExists_tail_ok _ _ _ (by decide) (by decide)) rp hrp
  rw [if_neg h8] at hrp
  by_cases h9 : (k == "kilocode") = true
  · rw [if_pos h9] at hrp
    exact forall_mem_append_of (rulesExtras_tail_ok _ _ _)
      (roleIfExists_tail_ok _ _ _ (by decide) (by decide)) rp hrp
  rw [if_neg h9] at hrp
  by_cases h10 : (k == "auggie") = true
  · rw [if_pos h10] at hrp
    exact forall_mem_append_of (rulesExtras_tail_ok _ _ _)
      (roleIfExists_tail_ok _ _ _ (by decide) (by decide)) rp hrp
  rw [if_neg h10] at hrp
  by_cases h11 : (k == "roo") = true
  · rw [if_pos h11] at hrp
    exact rulesExtras_tail_ok _ _ _ rp hrp
  rw [if_neg h11] at hrp
  by_cases h12 : (k == "codebuddy") = true
  · rw [if_pos h12] at hrp
    exact mdAgentExtras_tail_ok _ _ _ _ rp hrp
  rw [if_neg h12] at hrp
  by_cases h13 : (k == "qoder") = true
  · rw [if_pos h13] at hrp
    exact mdAgentExtras_tail_ok _ _ _ _ rp hrp
  rw [if_neg h13] at hrp
  by_cases h14 : (k == "q") = true
  · rw [if_pos h14] at hrp
    exact forall_mem_append_of (roleIfExists_tail_ok _ _ _ (by decide) (by decide))
      (roleIfExists_tail_ok _ _ _ (by decide) (by decide)) rp hrp
  rw [if_neg h14] at hrp
  by_cases h15 : (k == "amp") = true
  · rw [if_pos h15] at hrp
    exact forall_mem_append_of (roleIfExists_tail_ok _ _ _ (by decide) (by decide))
      (roleIfExists_tail_ok _ _ _ (by decide) (by decide)) rp hrp
  rw [if_neg h15] at hrp
  by_cases h16 : (k == "bob") = true
  · rw [if_pos h16] at hrp
    exact forall_mem_append_of (roleIfExists_tail_ok _ _ _ (by decide) (by decide))
      (roleIfExists_tail_ok _ _ _ (by decide) (by decide)) rp hrp
  rw [if_neg h16] at hrp
  by_cases h17 : (k == "shai") = true
  · rw [if_pos h17] at hrp
    exact mdAgentExtras_tail_ok _ _ _ _ rp hrp
  rw [if_neg h17] at hrp
  exact absurd hrp (List.not_mem_nil rp)

/-- Vacuous pointwise property of the empty list. -/
theorem forall_mem_nil_ok {α : Type} {P : α → Prop} : ∀ a ∈ ([] : List α), P a :=
  fun a ha => absurd ha (List.not_mem_nil a)

/-- Membership in an else-side conditional singleton forces the element. -/
theorem forall_mem_if_singleton' {α : Type} {c : Prop} [Decidable c] {x : α} {P : α → Prop}
    (h : P x) : ∀ a ∈ (if c then [] else [x]), P a := by
  intro a ha
  split at ha
  · simp at ha
  · rw [List.mem_singleton.mp ha]; exact h

/-- Combining well-shaped checker outputs componentwise. -/
theorem pairOk_append {k : String} {a b : List Finding × List Finding}
    (ha : PairOk k a) (hb : PairOk k b) : PairOk k (a.1 ++ b.1, a.2 ++ b.2) :=
  ⟨forall_mem_append_of ha.1 hb.1, forall_mem_append_of ha.2 hb.2⟩

/-- The empty checker output is well-shaped. -/
theorem pairOk_nil (k : String) : PairOk k (([], []) : List Finding × List Finding) :=
  ⟨forall_mem_nil_ok, forall_mem_nil_ok⟩

/-- Finding-shape lemma for the structural checker, given the `dir` role
is present (so the "Agent directory not found" branch is not taken). -/
theorem check_directory_structure_ok (root : FsPath) (cfgs : Registry) (fs : FS)
    (k : String) (paths : AgentPaths) (d : FsPath)
    (hdir : paths.lookup "dir" = some d) :
    PairOk k (check_directory_structure root cfgs fs k paths) := by
  unfold check_directory_structure
  rw [hdir]
  dsimp only
  by_cases h1 : singleRootAgents.contains k = true
  · rw [if_pos h1]
    by_cases h2 : fs.existsPath (d ++ ["commands"]) = true
    · rw [if_pos h2]; exact pairOk_nil k
    · rw [if_neg h2]
      exact ⟨forall_mem_nil_ok, fun f hf => by
        rw [List.mem_singleton.mp hf]
        exact ⟨rfl, rfl, head_ne_A_of_head_eq (data_head_append _ _ _ rfl) (by decide)⟩⟩
  rw [if_neg h1]
  by_cases h3 : (k == "copilot") = true
  · rw [if_pos h3]
    exact ⟨forall_mem_if_singleton'
             ⟨rfl, rfl, head_ne_A_of_head_eq (data_head_append _ _ _ rfl) (by decide)⟩,
           forall_mem_if_singleton'
             ⟨rfl, rfl, head_ne_A_of_head_eq (data_head_append _ _ _ rfl) (by decide)⟩⟩
  rw [if_neg h3]
  by_cases h4 : (k == "windsurf" || k == "kilocode") = true
  · rw [if_pos h4]
    exact ⟨forall_mem_nil_ok,
           forall_mem_append_of
             (forall_mem_if_singleton'
               ⟨rfl, rfl, head_ne_A_of_head_eq (data_head_append _ _ _ rfl) (by decide)⟩)
             (forall_mem_if_singleton'
               ⟨rfl, rfl, head_ne_A_of_head_eq (data_head_append _ _ _ rfl) (by decide)⟩)⟩
  rw [if_neg h4]
  exact pairOk_nil k

/-- Finding-shape lemma for the markdown format validator. -/
theorem validate_markdown_format_ok (root : FsPath) (k : String) (file : FsPath)
    (content : String) : PairOk k (validate_markdown_format root k file content) := by
  unfold validate_markdown_format
  dsimp only
  by_cases h1 : (!strStartsWith content "---") = true
  · rw [if_pos h1]
    exact ⟨fun f hf => by rw [List.mem_singleton.mp hf]; exact ⟨rfl, rfl, head_ne_A_of_head_eq rfl (by decide)⟩,
           forall_mem_nil_ok⟩
  rw [if_neg h1]
  by_cases h2 : (pySplit2 content "---").length < 3
  · rw [if_pos h2]
    exact ⟨fun f hf => by rw [List.mem_singleton.mp hf]; exact ⟨rfl, rfl, head_ne_A_of_head_eq rfl (by decide)⟩,
           forall_mem_nil_ok⟩
  rw [if_neg h2]
  exact ⟨forall_mem_if_singleton ⟨rfl, rfl, head_ne_A_of_head_eq rfl (by decide)⟩,
         forall_mem_append_of (forall_mem_if_singleton ⟨rfl, rfl, head_ne_A_of_head_eq rfl (by decide)⟩)
           (forall_mem_if_singleton ⟨rfl, rfl, head_ne_A_of_head_eq rfl (by decide)⟩)⟩

/-- Finding-shape lemma for the TOML format validator. -/
theorem validate_toml_format_ok (root : FsPath) (k : String) (file : FsPath)
    (content : String) : PairOk k (validate_toml_format root k file content) := by
  unfold validate_toml_format
  dsimp only
  exact ⟨forall_mem_append_of (forall_mem_if_singleton ⟨rfl, rfl, head_ne_A_of_head_eq rfl (by decide)⟩)
           (forall_mem_if_singleton ⟨rfl, rfl, head_ne_A_of_head_eq rfl (by decide)⟩),
         forall_mem_if_singleton ⟨rfl, rfl, head_ne_A_of_head_eq rfl (by decide)⟩⟩

/-- Finding-shape lemma for the copilot format validator. -/
theorem validate_copilot_format_ok (root : FsPath) (k : String) (file : FsPath)
    (content : String) : PairOk k (validate_copilot_format root k file content) := by
  unfold validate_copilot_format
  dsimp only
  by_cases h1 : (!strStartsWith content "---") = true
  · rw [if_pos h1]
    exact ⟨fun f hf => by rw [List.mem_singleton.mp hf]; exact ⟨rfl, rfl, head_ne_A_of_head_eq rfl (by decide)⟩,
           forall_mem_nil_ok⟩
  rw [if_neg h1]
  by_cases h2 : (pySplit2 content "---").length < 3
  · rw [if_pos h2]
    exact ⟨fun f hf => by rw [List.mem_singleton.mp hf]; exact ⟨rfl, rfl, head_ne_A_of_head_eq rfl (by decide)⟩,
           forall_mem_nil_ok⟩
  rw [if_neg h2]
  exact ⟨forall_mem_if_singleton ⟨rfl, rfl, head_ne_A_of_head_eq rfl (by decide)⟩,
         forall_mem_if_singleton ⟨rfl, rfl, head_ne_A_of_head_eq rfl (by decide)⟩⟩

/-- Finding-shape lemma for the per-file command validator. -/
theorem validate_command_file_ok (root : FsPath) (fs : FS) (k : String) (file : FsPath)
    (ft : String) : PairOk k (validate_command_file root fs k file ft) := by
  unfold validate_command_file
  cases h : fs.readFile file with
  | none =>
    exact ⟨fun f hf => by
             rw [List.mem_singleton.mp hf]
             exact ⟨rfl, rfl, head_ne_A_of_head_eq
               (data_head_append _ _ _ (data_head_append _ _ _ rfl)) (by decide)⟩,
           forall_mem_nil_ok⟩
  | some payload =>
    cases payload with
    | error e =>
      exact ⟨fun f hf => by
               rw [List.mem_singleton.mp hf]
               exact ⟨rfl, rfl, head_ne_A_of_head_eq
                 (data_head_append _ _ _
                   (data_head_append _ _ _ (data_head_append _ _ _ rfl))) (by decide)⟩,
             forall_mem_nil_ok⟩
    | ok content =>
      dsimp only
      by_cases hg : (k == "gemini" || k == "qwen") = true
      · rw [if_pos hg]; exact validate_toml_format_ok root k file content
      rw [if_neg hg]
      by_cases hc : (k == "copilot") = true
      · rw [if_pos hc]; exact validate_copilot_format_ok root k file content
      rw [if_neg hc]
      exact validate_markdown_format_ok root k file content

/-- Finding-shape lemma for the command-directory checker. -/
theorem check_command_files_ok (root : FsPath) (fs : FS) (k : String) (dir : FsPath)
    (ft : String) : PairOk k (check_command_files root fs k dir ft) := by
  unfold check_command_files
  dsimp only
  by_cases h1 : (!fs.existsPath dir) = true
  · rw [if_pos h1]; exact pairOk_nil k
  rw [if_neg h1]
  by_cases h2 : (fs.glob dir (get_expected_extension k)).isEmpty = true
  · rw [if_pos h2]
    exact ⟨forall_mem_nil_ok, fun f hf => by
      rw [List.mem_singleton.mp hf]
      exact ⟨rfl, rfl, head_ne_A_of_head_eq
        (data_head_append _ _ _
          (data_head_append _ _ _ (data_head_append _ _ _ rfl))) (by decide)⟩⟩
  rw [if_neg h2]
  constructor
  · intro f hf
    obtain ⟨p, hp, hfp⟩ := List.mem_flatMap.mp hf
    exact (validate_command_file_ok root fs k p ft).1 f hfp
  · intro f hf
    obtain ⟨p, hp, hfp⟩ := List.mem_flatMap.mp hf
    exact (validate_command_file_ok root fs k p ft).2 f hfp

/-- Finding-shape lemma for the context file checker. -/
theorem check_context_file_ok (root : FsPath) (fs : FS) (k : String) (ctx : FsPath) :
    PairOk k (check_context_file root fs k ctx) := by
  unfold check_context_file
  dsimp only
  cases h : fs.readFile ctx with
  | none =>
    exact ⟨fun f hf => by rw [List.mem_singleton.mp hf]; exact ⟨rfl, rfl, head_ne_A_of_head_eq rfl (by decide)⟩,
           forall_mem_nil_ok⟩
  | some payload =>
    cases payload with
    | error e =>
      exact ⟨fun f hf => by
               rw [List.mem_singleton.mp hf]
               exact ⟨rfl, rfl, head_ne_A_of_head_eq (data_head_append _ _ _ rfl) (by decide)⟩,
             forall_mem_nil_ok⟩
    | ok content =>
      exact ⟨forall_mem_nil_ok,
             forall_mem_append_of
               (forall_mem_append_of
                 (forall_mem_append_of (forall_mem_if_singleton ⟨rfl, rfl, head_ne_A_of_head_eq rfl (by decide)⟩)
                   (forall_mem_if_singleton ⟨rfl, rfl, head_ne_A_of_head_eq rfl (by decide)⟩))
                 (forall_mem_if_singleton ⟨rfl, rfl, head_ne_A_of_head_eq rfl (by decide)⟩))
               (forall_mem_if_singleton ⟨rfl, rfl, head_ne_A_of_head_eq rfl (by decide)⟩)⟩

/-- Finding-shape lemma for the required-command-set checker. -/
theorem check_required_commands_ok (fs : FS) (k : String) (paths : AgentPaths) :
    PairOk k (check_required_commands fs k paths) := by
  unfold check_required_commands
  cases h : primary_commands_dir paths with
  | none => exact pairOk_nil k
  | some dir =>
    dsimp only
    by_cases h1 : (!fs.existsPath dir) = true
    · rw [if_pos h1]; exact pairOk_nil k
    rw [if_neg h1]
    by_cases h2 : (required_commands.filter
        (fun c => !fs.existsPath (required_command_file k dir c))).isEmpty = true
    · rw [if_pos h2]; exact pairOk_nil k
    rw [if_neg h2]
    exact ⟨forall_mem_nil_ok, fun f hf => by
      rw [List.mem_singleton.mp hf]
      exact ⟨rfl, rfl, head_ne_A_of_head_eq (data_head_append _ _ _ rfl) (by decide)⟩⟩

/-- Finding-shape lemma for one agent's full validation pass, given the
`dir` role is present. -/
theorem validate_agent_ok (root : FsPath) (cfgs : Registry) (fs : FS) (k : String)
    (paths : AgentPaths) (d : FsPath) (hdir : paths.lookup "dir" = some d) :
    PairOk k (validate_agent root cfgs fs k paths) := by
  have hs := check_directory_structure_ok root cfgs fs k paths d hdir
  have hr := check_required_commands_ok fs k paths
  unfold validate_agent
  dsimp only
  cases hcm : paths.lookup "commands" with
  | some cd =>
    cases hcx : paths.lookup "context_file" with
    | some cf =>
      exact pairOk_append (pairOk_append (pairOk_append hs
        (check_command_files_ok root fs k cd "command"))
        (check_context_file_ok root fs k cf)) hr
    | none =>
      exact pairOk_append (pairOk_append (pairOk_append hs
        (check_command_files_ok root fs k cd "command")) (pairOk_nil k)) hr
  | none =>
    cases hwf : paths.lookup "workflows" with
    | some wd =>
      cases hcx : paths.lookup "context_file" with
      | some cf =>
        exact pairOk_append (pairOk_append (pairOk_append hs
          (check_command_files_ok root fs k wd "workflow"))
          (check_context_file_ok root fs k cf)) hr
      | none =>
        exact pairOk_append (pairOk_append (pairOk_append hs
          (check_command_files_ok root fs k wd "workflow")) (pairOk_nil k)) hr
    | none =>
      cases hpr : paths.lookup "prompts" with
      | some pd =>
        cases hcx : paths.lookup "context_file" with
        | some cf =>
          exact pairOk_append (pairOk_append (pairOk_append hs
            (check_command_files_ok root fs k pd "prompt"))
            (check_context_file_ok root fs k cf)) hr
        | none =>
          exact pairOk_append (pairOk_append (pairOk_append hs
            (check_command_files_ok root fs k pd "prompt")) (pairOk_nil k)) hr
      | none =>
        cases hcx : paths.lookup "context_file" with
        | some cf =>
          exact pairOk_append (pairOk_append (pairOk_append hs (pairOk_nil k))
            (check_context_file_ok root fs k cf)) hr
        | none =>
          exact pairOk_append (pairOk_append (pairOk_append hs (pairOk_nil k))
            (pairOk_nil k)) hr

/-- Every finding of a full validation pass comes either from the
no-detection branch or from some detected agent, with the well-formed
severity and message shape. -/
theorem validate_agent_standards_findings (root : FsPath) (cfgs : Registry) (fs : FS) :
    (∀ f ∈ (validate_agent_standards root cfgs fs).issues,
       ∃ kp ∈ detect_agents root fs cfgs, IssueOk kp.1 f) ∧
    (∀ f ∈ (validate_agent_standards root cfgs fs).warnings,
       f = no_agents_warning ∨ ∃ kp ∈ detect_agents root fs cfgs, WarnOk kp.1 f) := by
  unfold validate_agent_standards validate_all
  by_cases h : (detect_agents root fs cfgs).isEmpty = true
  · rw [if_pos h]
    constructor
    · intro f hf; exact absurd hf (List.not_mem_nil f)
    · intro f hf
      left
      have hf2 : f ∈ [no_agents_warning] := by simpa [VState.fresh] using hf
      exact List.mem_singleton.mp hf2
  · rw [if_neg h]
    constructor
    · intro f hf
      dsimp only at hf
      rw [show VState.fresh.issues = [] from rfl, List.nil_append] at hf
      obtain ⟨⟨k, ps⟩, hkp, hfk⟩ := List.mem_flatMap.mp hf
      refine ⟨(k, ps), hkp, ?_⟩
      obtain ⟨c, hcmem, hdet⟩ := (detect_agents_mem root fs cfgs k ps).mp hkp
      obtain ⟨folder, hfo, hex, hps, hkeys⟩ := detect_one_eq_some root fs k c ps hdet
      have hdirk : ps.lookup "dir" = some (root ++ [folder]) := by
        rw [hps]; exact detect_paths_lookup_dir root fs k (root ++ [folder])
      exact (validate_agent_ok root cfgs fs k ps (root ++ [folder]) hdirk).1 f hfk
    · intro f hf
      dsimp only at hf
      rw [show VState.fresh.warnings = [] from rfl, List.nil_append] at hf
      obtain ⟨⟨k, ps⟩, hkp, hfk⟩ := List.mem_flatMap.mp hf
      refine Or.inr ⟨(k, ps), hkp, ?_⟩
      obtain ⟨c, hcmem, hdet⟩ := (detect_agents_mem root fs cfgs k ps).mp hkp
      obtain ⟨folder, hfo, hex, hps, hkeys⟩ := detect_one_eq_some root fs k c ps hdet
      have hdirk : ps.lookup "dir" = some (root ++ [folder]) := by
        rw [hps]; exact detect_paths_lookup_dir root fs k (root ++ [folder])
      exact (validate_agent_ok root cfgs fs k ps (root ++ [folder]) hdirk).2 f hfk

/-- C2: the detection characterization.  A registry entry with an absent
base folder (meta-entry) is never detected; a detected agent has an
existing base directory, its paths mapping starts with the `dir` role and
records at least one further entry whose role is among the six recognized
role names, differs from `dir`, and resolves to an existing path; an
agent whose base directory exists and whose convention recorded any
non-`dir` role is detected; and an agent excluded by detection (with a
unique registry entry) contributes no finding at all to the pass. -/
theorem c2_detection_characterization (root : FsPath) (fs : FS) (cfgs : Registry)
    (key : String) (c : AgentCfg) :
    (c.folder = none → detect_one root fs key c = none) ∧
    (∀ paths, detect_one root fs key c = some paths →
       ∃ folder, c.folder = some folder ∧ fs.existsPath (root ++ [folder]) = true ∧
         paths.head? = some ("dir", root ++ [folder]) ∧
         ∃ rp ∈ paths.tail, rp.1 ∈ roleNames ∧ rp.1 ≠ "dir" ∧ fs.existsPath rp.2 = true) ∧
    (∀ folder, c.folder = some folder → fs.existsPath (root ++ [folder]) = true →
       (∃ rp, rp ∈ (detect_paths root fs key (root ++ [folder])).tail) →
       detect_one root fs key c ≠ none) ∧
    ((key, c) ∈ cfgs → (∀ c', (key, c') ∈ cfgs → c' = c) →
       detect_one root fs key c = none → key ≠ "none" →
       ∀ f, (f ∈ (validate_agent_standards root cfgs fs).issues ∨
             f ∈ (validate_agent_standards root cfgs fs).warnings) → f.agent ≠ key) := by
  refine ⟨?_, ?_, ?_, ?_⟩
  · intro h
    unfold detect_one
    rw [h]
  · intro paths hdet
    obtain ⟨folder, hfo, hex, hps, hkeys⟩ := detect_one_eq_some root fs key c paths hdet
    refine ⟨folder, hfo, hex, ?_, ?_⟩
    · rw [hps, detect_paths_cons]; rfl
    · have htail : paths.tail ≠ [] := by
        intro hnil
        apply hkeys
        rw [hps] at hnil ⊢
        rw [detect_paths_cons root fs key (root ++ [folder]), hnil]
        rfl
      obtain ⟨rp, hrp⟩ := List.exists_mem_of_ne_nil _ htail
      have hok : TailOk fs rp := by
        rw [hps] at hrp
        exact detect_paths_tail_ok root fs key (root ++ [folder]) rp hrp
      exact ⟨rp, hrp, hok.1, hok.2.1, hok.2.2⟩
  · rintro folder hfo hex ⟨rp, hrp⟩
    have htail : (detect_paths root fs key (root ++ [folder])).tail ≠ [] := by
      intro hnil
      rw [hnil] at hrp
      exact absurd hrp (List.not_mem_nil rp)
    rw [detect_one_of_tail_ne root fs key c folder hfo hex htail]
    exact Option.some_ne_none _
  · intro hmem huniq hnone hkey f hf heq
    obtain ⟨hi, hw⟩ := validate_agent_standards_findings root cfgs fs
    have contra : ∀ k2 (ps : AgentPaths), (k2, ps) ∈ detect_agents root fs cfgs →
        f.agent = k2 → False := by
      intro k2 ps hkp hag
      have hk2 : k2 = key := by rw [← hag, heq]
      subst hk2
      obtain ⟨c', hc'mem, hdet⟩ := (detect_agents_mem root fs cfgs k2 ps).mp hkp
      rw [huniq c' hc'mem, hnone] at hdet
      cases hdet
    rcases hf with hf | hf
    · obtain ⟨⟨k2, ps⟩, hkp, hok⟩ := hi f hf
      exact contra k2 ps hkp hok.1
    · rcases hw f hf with rfl | ⟨⟨k2, ps⟩, hkp, hok⟩
      · exact hkey heq.symm
      · exact contra k2 ps hkp hok.1

/-- Witness for C2, exercising the meta-entry conjunct, the converse
detection conjunct, and the no-findings conjunct at concrete snapshots. -/
theorem c2_detection_characterization_witness :
    detect_one [] ⟨[], []⟩ "all" ⟨"All agents", none⟩ = none ∧
    detect_one [] fsOpencode "opencode" ⟨"opencode", some ".opencode"⟩ ≠ none ∧
    detect_one [] fsClaudeBare "claude" ⟨"Claude Code", some ".claude"⟩ = none ∧
    no_agents_warning ∈ (validate_agent_standards [] regClaude fsClaudeBare).warnings ∧
    no_agents_warning.agent ≠ "claude" := by
  refine ⟨?_, ?_, by decide, by decide, ?_⟩
  · exact (c2_detection_characterization [] ⟨[], []⟩ [] "all" ⟨"All agents", none⟩).1 rfl
  · exact (c2_detection_characterization [] fsOpencode regOpencode "opencode"
      ⟨"opencode", some ".opencode"⟩).2.2.1 ".opencode" rfl (by decide)
      ⟨("commands", [".opencode", "command"]), by decide⟩
  · exact (c2_detection_characterization [] fsClaudeBare regClaude "claude"
      ⟨"Claude Code", some ".claude"⟩).2.2.2 (by decide)
      (fun c' h => (Prod.ext_iff.mp (List.mem_singleton.mp h)).2) (by decide) (by decide)
      no_agents_warning (Or.inr (by decide))

/-- C4 (amended): every Finding in the issues list carries
`severity = "error"`; Findings in the warnings list carry no severity
key at all — their warning status is implicit in which list they are
appended to. -/
theorem c4_severity_fields (root : FsPath) (cfgs : Registry) (fs : FS) :
    (∀ f ∈ (validate_agent_standards root cfgs fs).issues, f.severity = some "error") ∧
    (∀ f ∈ (validate_agent_standards root cfgs fs).warnings, f.severity = none) := by
  obtain ⟨hi, hw⟩ := validate_agent_standards_findings root cfgs fs
  constructor
  · intro f hf
    obtain ⟨kp, _, hok⟩ := hi f hf
    exact hok.2.1
  · intro f hf
    rcases hw f hf with rfl | ⟨kp, _, hok⟩
    · rfl
    · exact hok.2.1

/-- Witness for C4's amended statement at a snapshot producing one error
finding. -/
theorem c4_severity_fields_witness :
    (⟨"claude", "format", some "error", some ".claude/commands/specify.md",
      "Missing YAML frontmatter (should start with ---)"⟩ : Finding) ∈
        (validate_agent_standards [] regClaude fsClaudeBadFile).issues ∧
    (⟨"claude", "format", some "error", some ".claude/commands/specify.md",
      "Missing YAML frontmatter (should start with ---)"⟩ : Finding).severity = some "error" := by
  refine ⟨by decide, ?_⟩
  exact (c4_severity_fields [] regClaude fsClaudeBadFile).1 _ (by decide)

/-- C4 counterexample: a warning Finding actually appended by the
validator — the merged missing-commands warning — carries no severity
key at all, refuting the claim that every appended Finding carries a
severity field valued error or warning. -/
theorem c4_counterexample_no_severity_key :
    (validate_agent_standards [] regClaude fsClaude).warnings =
      [⟨"claude", "commands", none, none,
        "Missing expected spec-kit commands: plan, tasks, implement, constitution, clarify, analyze, checklist"⟩] ∧
    (⟨"claude", "commands", none, none,
      "Missing expected spec-kit commands: plan, tasks, implement, constitution, clarify, analyze, checklist"⟩ : Finding).severity = none ∧
    (⟨"claude", "commands", none, none,
      "Missing expected spec-kit commands: plan, tasks, implement, constitution, clarify, analyze, checklist"⟩ : Finding).severity ≠ some "warning" := by
  decide

/-- C10: every detected agent's paths mapping contains the `dir` role
(detection inserts it unconditionally), so the structural checker's
"Agent directory not found" error branch is unreachable: no finding of a
fresh validation pass ever carries that message. -/
theorem c10_agent_dir_error_unreachable (root : FsPath) (cfgs : Registry) (fs : FS)
    (k : String) (paths : AgentPaths)
    (hk : (k, paths) ∈ detect_agents root fs cfgs)
    (f : Finding)
    (hf : f ∈ (validate_agent_standards root cfgs fs).issues ∨
          f ∈ (validate_agent_standards root cfgs fs).warnings)
    (folder : String) :
    (paths.lookup "dir").isSome = true ∧
    f.message ≠ "Agent directory not found: " ++ folder := by
  constructor
  · obtain ⟨c, hcmem, hdet⟩ := (detect_agents_mem root fs cfgs k paths).mp hk
    obtain ⟨fo, hfo, hex, hps, hkeys⟩ := detect_one_eq_some root fs k c paths hdet
    rw [hps, detect_paths_lookup_dir]
    rfl
  · have hA : f.message.data.head? ≠ some 'A' := by
      obtain ⟨hi, hw⟩ := validate_agent_standards_findings root cfgs fs
      rcases hf with hf | hf
      · obtain ⟨kp, _, hok⟩ := hi f hf
        exact hok.2.2
      · rcases hw f hf with rfl | ⟨kp, _, hok⟩
        · decide
        · exact hok.2.2
    intro heq
    apply hA
    rw [heq]
    exact data_head_append _ _ 'A' rfl

/-- Witness for C10 at a concrete detected agent and concrete finding. -/
theorem c10_agent_dir_error_unreachable_witness :
    ("claude", pathsClaude) ∈ detect_agents [] fsClaude regClaude ∧
    (⟨"claude", "commands", none, none,
      "Missing expected spec-kit commands: plan, tasks, implement, constitution, clarify, analyze, checklist"⟩ : Finding) ∈
        (validate_agent_standards [] regClaude fsClaude).warnings ∧
    (pathsClaude.lookup "dir").isSome = true ∧
    (⟨"claude", "commands", none, none,
      "Missing expected spec-kit commands: plan, tasks, implement, constitution, clarify, analyze, checklist"⟩ : Finding).message ≠
      "Agent directory not found: " ++ ".claude" := by
  refine ⟨by decide, by decide, ?_, ?_⟩
  · exact (c10_agent_dir_error_unreachable [] regClaude fsClaude "claude" pathsClaude
      (by decide) (⟨"claude", "commands", none, none,
        "Missing expected spec-kit commands: plan, tasks, implement, constitution, clarify, analyze, checklist"⟩ : Finding) (Or.inr (by decide)) ".claude").1
  · exact (c10_agent_dir_error_unreachable [] regClaude fsClaude "claude" pathsClaude
      (by decide) (⟨"claude", "commands", none, none,
        "Missing expected spec-kit commands: plan, tasks, implement, constitution, clarify, analyze, checklist"⟩ : Finding) (Or.inr (by decide)) ".claude").2

end SpecKit
